import Mathlib

/-!
Verification of the `BlockSet` coordination contract of the meltano repository
(`src/meltano/core/block/blockset.py`) and of the `atomic_write` helper
exercised by `tests/meltano/core/test_utils.py`.

The repository excerpt contains the abstract `BlockSet` contract and the
`BlockSetValidationError` exception; the concrete coordinator
(`ExtractLoadBlocks`), the base `MeltanoError` class and `utils.atomic_write`
are not part of the excerpt, so those parts are modelled from the
specification document, as marked on each definition.
-/

/-- Modelled from the spec: the base `MeltanoError` class
(`meltano.core.error`, not part of the excerpt).  Per the spec, an error
"always carries a machine-checkable reason ... and optionally a user-facing
remediation hint": we model it as carrying its message string and an optional
remediation instruction. -/
structure MeltanoError where
  message : String
  instruction : Option String
  deriving DecidableEq, Repr

/-- Default value of the `message` parameter of
`BlockSetValidationError.__init__`. -/
def BlockSetValidationError.defaultMessage : String :=
  "block violates set requirements"

/-- `BlockSetValidationError.__init__(self, error, message=..., instruction=None)`:
calls `super().__init__(f"{message}: {error}", instruction=instruction)`. -/
def BlockSetValidationError.init (error : String) (message : String)
    (instruction : Option String) : MeltanoError :=
  { message := message ++ ": " ++ error, instruction := instruction }

/-- Mirrors `typing.NoReturn`, the declared result type of the abstract
`BlockSet.terminate`: a type with no inhabitants. -/
inductive PyNoReturn : Type
  deriving DecidableEq

/-- Python exceptions relevant to the excerpt. -/
inductive PyExc : Type
  | notImplementedError
  | other (msg : String)
  deriving DecidableEq, Repr

/-- One pipeline unit (`IOBlock`): identified by a name, with an optional
output-stream producer handle and an optional input-stream consumer handle
(we record only their presence, which is all validation inspects). -/
structure IOBlock where
  name : String
  hasProducer : Bool
  hasConsumer : Bool
  deriving DecidableEq, Repr

/-- The `BlockSet` interface as declared in the excerpt: an ordered sequence
of `IOBlock`s together with the three contractual operations.  `terminate`
is declared with result type `t.NoReturn`, which we translate to the empty
type `PyNoReturn`: a call completes either by raising (`Except.error`) or by
producing a value of the empty type. -/
structure BlockSetSig where
  blocks : List IOBlock
  run : Except PyExc Unit
  terminate : Bool → Except PyExc PyNoReturn
  validate_set : Except PyExc Unit

/-- The abstract method body of `BlockSet.terminate`:
`raise NotImplementedError`. -/
def BlockSet.terminateAbstract (_graceful : Bool) : Except PyExc PyNoReturn :=
  .error .notImplementedError

/-- Machine-checkable reasons for a block-set validation failure, per the
spec: empty set, dangling source input handle, dangling sink output handle,
missing interior handle. -/
inductive ValidationReason : Type
  | emptySet
  | danglingSource
  | danglingSink
  | missingInteriorHandle (index : Nat)
  deriving DecidableEq, Repr

/-- Modelled from the spec: the tail of `ExtractLoadBlocks.validate_set`
(the concrete coordinator is not part of the excerpt).  Walks the units
after the first one: every interior unit must expose both handles, and the
last unit must not expose a producer handle. -/
def checkChain : List IOBlock → Nat → Except ValidationReason Unit
  | [], _ => .ok ()
  | [last], _ => if last.hasProducer then .error .danglingSink else .ok ()
  | b :: rest, i =>
    if b.hasProducer && b.hasConsumer then checkChain rest (i + 1)
    else .error (.missingInteriorHandle i)

/-- Modelled from the spec: `ExtractLoadBlocks.validate_set` (the concrete
coordinator is not part of the excerpt).  Fails on an empty sequence; a
single-unit set is valid regardless of handles; in a multi-unit chain the
first unit must not expose a consumer handle, every interior unit must
expose both handles, and the last unit must not expose a producer handle. -/
def validateSet : List IOBlock → Except ValidationReason Unit
  | [] => .error .emptySet
  | [_] => .ok ()
  | first :: rest =>
    if first.hasConsumer then .error .danglingSource
    else checkChain rest 1

/-- Per-unit execution status inside one coordinator instance. -/
inductive UnitStatus : Type
  | notStarted
  | running
  | completedOk
  | failed (cause : String)
  | cancelled
  deriving DecidableEq, Repr

/-- Modelled from the spec: the mutable state of one `ExtractLoadBlocks`
instance — the immutable `blocks` tuple fixed at construction, plus per-unit
statuses, the number of live `PipeConnector` buffers, and whether
termination is already underway. -/
structure ELBState where
  blocks : List IOBlock
  statuses : List UnitStatus
  connectors : Nat
  terminating : Bool
  deriving DecidableEq, Repr

/-- Construction from an ordered sequence of units: performs no validation
and starts no work. -/
def ELBState.init (bs : List IOBlock) : ELBState :=
  { blocks := bs
    statuses := bs.map fun _ => UnitStatus.notStarted
    connectors := 0
    terminating := false }

/-- Modelled from the spec: `validate_set` as an operation on the coordinator
state — a pure, side-effect-free structural check of the `blocks` sequence
that starts no work and leaves the state untouched. -/
def ELBState.validateSetOp (s : ELBState) :
    Except ValidationReason Unit × ELBState :=
  (validateSet s.blocks, s)

/-- Modelled from the spec: `terminate(graceful)` as an operation on the
coordinator state.  A call while termination is already underway is a no-op
(neither an error nor a second release of resources); otherwise it marks the
set as terminating, closes every live `PipeConnector` buffer and completes
every still-running unit as cancelled.  The grace-period drain of a graceful
terminate is not observable at this level: per the spec, an in-flight run
completes as cancelled either way. -/
def ELBState.terminateOp (_graceful : Bool) (s : ELBState) :
    Except PyExc Unit × ELBState :=
  if s.terminating then (.ok (), s)
  else
    (.ok (),
      { s with
        terminating := true
        connectors := 0
        statuses := s.statuses.map fun st =>
          match st with
          | .running => .cancelled
          | other => other })

/-- What the run loop of each unit would do if left alone: complete
successfully, or fail with a cause. -/
inductive Behavior : Type
  | succeeds
  | fails (cause : String)
  deriving DecidableEq, Repr

/-- The coordinator-level outcome of `run()`. -/
inductive RunError : Type
  | validation (reason : ValidationReason)
  | unitFailure (unitName : String) (cause : String)
  deriving DecidableEq, Repr

/-- Index and cause of the first unit whose behavior is a failure. -/
def firstFailure : List Behavior → Option (Nat × String)
  | [] => none
  | .succeeds :: rest => (firstFailure rest).map fun p => (p.1 + 1, p.2)
  | .fails c :: _ => some (0, c)

/-- Name of the unit at a given index of the sequence. -/
def nameAt (bs : List IOBlock) (i : Nat) : String :=
  ((bs.get? i).map IOBlock.name).getD ""

/-- The observable trace of one `run()` invocation: its result, the final
coordinator state, and the `terminate(graceful)` calls the coordinator
issued to individual units along the way. -/
structure RunTrace where
  result : Except RunError Unit
  finalState : ELBState
  terminations : List (Nat × Bool)
  deriving Repr

/-- Modelled from the spec: `run()` as an operation on the coordinator
state.  `bhv` gives the behavior of each unit; `doneBefore` lists the indices
of the units that had already completed when the first failure (if any) was
observed — the scheduling nondeterminism of the concurrent fan-out.  Run
first re-validates as a defensive guard; on success of all units it returns
normally; on the first failing unit it forcefully terminates
(`terminate(graceful=False)`) every other still-running unit, then raises a
single failure naming the originating unit and wrapping its cause.  All
`PipeConnector`s are torn down before `run` returns. -/
def ELBState.runOp (s : ELBState) (bhv : List Behavior)
    (doneBefore : List Nat) : RunTrace :=
  match validateSet s.blocks with
  | .error r => ⟨.error (.validation r), s, []⟩
  | .ok () =>
    match firstFailure bhv with
    | none =>
      ⟨.ok (),
        { s with
          statuses := s.blocks.map fun _ => UnitStatus.completedOk
          connectors := 0 },
        []⟩
    | some (j, cause) =>
      ⟨.error (.unitFailure (nameAt s.blocks j) cause),
        { s with
          statuses := (List.range s.blocks.length).map fun i =>
            if i = j then UnitStatus.failed cause
            else if i ∈ doneBefore then UnitStatus.completedOk
            else UnitStatus.cancelled
          connectors := 0 },
        ((List.range s.blocks.length).filter fun i =>
          i ≠ j ∧ i ∉ doneBefore).map fun i => (i, false)⟩

/-- Claim C1: constructing `BlockSetValidationError(e, m, i)` yields an exception
whose message is `m ++ ": " ++ e` (with `m` defaulting to
"block violates set requirements" when omitted) and which carries `i` as the
optional user-facing remediation instruction. -/
theorem blockSetValidationError_message_and_instruction
    (e m : String) (i : Option String) :
    (BlockSetValidationError.init e m i).message = m ++ ": " ++ e ∧
    (BlockSetValidationError.init e m i).instruction = i ∧
    (BlockSetValidationError.init e BlockSetValidationError.defaultMessage
      i).message = "block violates set requirements" ++ ": " ++ e := by
  exact ⟨rfl, rfl, rfl⟩

/-- Claim C2: `terminate` is declared with result type `t.NoReturn` (the empty
type), so every completion of any implementation of the contract is by
raising, never by returning a value; in particular the abstract body itself
raises. -/
theorem terminate_never_returns_normally (b : BlockSetSig) (g : Bool) :
    (∃ e, b.terminate g = Except.error e) ∧
    BlockSet.terminateAbstract g = Except.error PyExc.notImplementedError := by
  refine ⟨?_, rfl⟩
  cases h : b.terminate g with
  | ok v => cases v
  | error e => exact ⟨e, rfl⟩

/-- Claim C6: for the block set whose sequence of units is empty, `validate_set`
fails with the empty-set reason. -/
theorem validateSet_empty_fails :
    (ELBState.init []).validateSetOp.1 =
      Except.error ValidationReason.emptySet := rfl

/-- Claim C7: for every block set whose sequence contains exactly one unit,
`validate_set` succeeds, whatever handles that unit declares. -/
theorem validateSet_singleton_succeeds (b : IOBlock) :
    (ELBState.init [b]).validateSetOp.1 = Except.ok () := rfl

/-- Claim C3: `validate_set` is pure and side-effect-free — it leaves the
coordinator state (blocks included) unchanged, its outcome is a function of
the blocks sequence alone (and any failure is the typed validation error of
its result type), and a second call yields exactly the same outcome and
state as the first. -/
theorem validate_set_pure_idempotent (s : ELBState) :
    s.validateSetOp.2 = s ∧
    s.validateSetOp.1 = validateSet s.blocks ∧
    s.validateSetOp.2.validateSetOp = s.validateSetOp :=
  ⟨rfl, rfl, rfl⟩

/-- Claim C4: the `blocks` sequence fixed at construction is never changed — in
length, elements or order — by `run`, `terminate` or `validate_set`. -/
theorem elb_blocks_immutable (s : ELBState) (bhv : List Behavior)
    (doneBefore : List Nat) (g : Bool) :
    (s.runOp bhv doneBefore).finalState.blocks = s.blocks ∧
    (ELBState.terminateOp g s).2.blocks = s.blocks ∧
    s.validateSetOp.2.blocks = s.blocks := by
  refine ⟨?_, ?_, rfl⟩
  · unfold ELBState.runOp
    split
    · rfl
    · split <;> rfl
  · unfold ELBState.terminateOp
    split <;> rfl

/-- Claim C8: `terminate` never raises, at whatever coordinator state (hence at
any interleaving point of an in-flight `run`), and it is idempotent: a
second call while termination is already underway returns without error and
changes nothing — in particular it releases no connector resource a second
time. -/
theorem terminate_safe_and_idempotent (g g' : Bool) (s : ELBState) :
    (ELBState.terminateOp g s).1 = Except.ok () ∧
    ELBState.terminateOp g' (ELBState.terminateOp g s).2 =
      (Except.ok (), (ELBState.terminateOp g s).2) := by
  constructor
  · unfold ELBState.terminateOp
    split <;> rfl
  · by_cases h : s.terminating <;> simp [ELBState.terminateOp, h]

/-- When the unit at index `j` fails and every unit before it succeeds, `j`
is the first failure. -/
theorem firstFailure_eq_of_fails_at (bhv : List Behavior) (j : Nat)
    (cause : String) (hj : bhv.get? j = some (Behavior.fails cause))
    (hbefore : ∀ i, i < j → bhv.get? i = some Behavior.succeeds) :
    firstFailure bhv = some (j, cause) := by
  induction bhv generalizing j with
  | nil => simp [List.get?] at hj
  | cons b rest ih =>
    cases j with
    | zero =>
      have hb : b = Behavior.fails cause := Option.some.inj hj
      subst hb
      rfl
    | succ j' =>
      have hb : b = Behavior.succeeds :=
        Option.some.inj (hbefore 0 (Nat.succ_pos j'))
      subst hb
      have hrest : firstFailure rest = some (j', cause) :=
        ih j' hj fun i hi => hbefore (i + 1) (Nat.succ_lt_succ hi)
      show (firstFailure rest).map _ = _
      rw [hrest]
      rfl

/-- Claim C5: when exactly one unit of a multi-unit set fails during `run`,
the coordinator issues `terminate(graceful=False)` to every other unit that
is still running, and `run` ends in a single failure naming the failing unit
and wrapping its cause — never a partial success. -/
theorem run_single_failure_propagation (s : ELBState) (bhv : List Behavior)
    (doneBefore : List Nat) (j : Nat) (cause : String)
    (hval : validateSet s.blocks = Except.ok ())
    (hj : bhv.get? j = some (Behavior.fails cause))
    (honly : ∀ i b, i ≠ j → bhv.get? i = some b → b = Behavior.succeeds) :
    (s.runOp bhv doneBefore).result =
      Except.error (RunError.unitFailure (nameAt s.blocks j) cause) ∧
    ((s.runOp bhv doneBefore).terminations =
      ((List.range s.blocks.length).filter fun i =>
        i ≠ j ∧ i ∉ doneBefore).map fun i => (i, false)) ∧
    (∀ i, i < s.blocks.length → i ≠ j → i ∉ doneBefore →
      (i, false) ∈ (s.runOp bhv doneBefore).terminations) := by
  have hff : firstFailure bhv = some (j, cause) := by
    refine firstFailure_eq_of_fails_at bhv j cause hj fun i hi => ?_
    obtain ⟨hlt, -⟩ := List.get?_eq_some.mp hj
    have hilt : i < bhv.length := Nat.lt_trans hi hlt
    have hbi : bhv.get? i = some (bhv.get ⟨i, hilt⟩) := List.get?_eq_get hilt
    have hsucc := honly i (bhv.get ⟨i, hilt⟩) (Nat.ne_of_lt hi) hbi
    rw [hbi, hsucc]
  have hrun : s.runOp bhv doneBefore =
      ⟨Except.error (RunError.unitFailure (nameAt s.blocks j) cause),
        { s with
          statuses := (List.range s.blocks.length).map fun i =>
            if i = j then UnitStatus.failed cause
            else if i ∈ doneBefore then UnitStatus.completedOk
            else UnitStatus.cancelled
          connectors := 0 },
        ((List.range s.blocks.length).filter fun i =>
          i ≠ j ∧ i ∉ doneBefore).map fun i => (i, false)⟩ := by
    unfold ELBState.runOp
    rw [hval, hff]
  refine ⟨?_, ?_, ?_⟩
  · rw [hrun]
  · rw [hrun]
  · intro i hi hij hdone
    rw [hrun]
    refine List.mem_map.mpr
      ⟨i, List.mem_filter.mpr ⟨List.mem_range.mpr hi, ?_⟩, rfl⟩
    simpa using ⟨hij, hdone⟩

/-- Concrete instance of the single-failure propagation theorem: a 3-unit
chain tap → transform → target whose middle unit fails with cause "boom"
while no unit has yet completed; the run fails naming "transform" and both
siblings receive `terminate(graceful=False)`. -/
theorem run_single_failure_propagation_witness :
    ((ELBState.init [⟨"tap", true, false⟩, ⟨"transform", true, true⟩,
        ⟨"target", false, true⟩]).runOp
      [Behavior.succeeds, Behavior.fails "boom", Behavior.succeeds]
      []).result =
      Except.error (RunError.unitFailure
        (nameAt [⟨"tap", true, false⟩, ⟨"transform", true, true⟩,
          ⟨"target", false, true⟩] 1) "boom") ∧
    (((ELBState.init [⟨"tap", true, false⟩, ⟨"transform", true, true⟩,
        ⟨"target", false, true⟩]).runOp
      [Behavior.succeeds, Behavior.fails "boom", Behavior.succeeds]
      []).terminations =
      ((List.range 3).filter fun i =>
        i ≠ 1 ∧ i ∉ ([] : List Nat)).map fun i => (i, false)) ∧
    (∀ i, i < 3 → i ≠ 1 → i ∉ ([] : List Nat) →
      (i, false) ∈ ((ELBState.init [⟨"tap", true, false⟩,
        ⟨"transform", true, true⟩, ⟨"target", false, true⟩]).runOp
        [Behavior.succeeds, Behavior.fails "boom", Behavior.succeeds]
        []).terminations) :=
  run_single_failure_propagation
    (ELBState.init [⟨"tap", true, false⟩, ⟨"transform", true, true⟩,
      ⟨"target", false, true⟩])
    [Behavior.succeeds, Behavior.fails "boom", Behavior.succeeds]
    [] 1 "boom" rfl rfl
    (by
      intro i b hne hb
      match i, hne, hb with
      | 0, _, hb => exact (Option.some.inj hb).symm
      | 1, hne, _ => exact absurd rfl hne
      | 2, _, hb => exact (Option.some.inj hb).symm
      | (n + 3), _, hb => exact Option.noConfusion hb)

/-- A Python class under `ABCMeta`: its name, the concrete method names it
defines or inherits, and the names of methods still marked abstract. -/
structure PyClass where
  name : String
  methods : List String
  abstractMethodNames : List String
  deriving DecidableEq, Repr

/-- An object of a Python class. -/
structure PyInstance where
  cls : PyClass
  deriving DecidableEq, Repr

/-- ABCMeta semantics of calling a class: instantiation raises `TypeError`
while any abstract method remains un-overridden, and succeeds otherwise. -/
def instantiate (c : PyClass) : Except PyExc PyInstance :=
  if c.abstractMethodNames.isEmpty then .ok ⟨c⟩
  else .error (.other ("TypeError: cannot instantiate abstract class " ++ c.name))

/-- The `BlockSet` class of the excerpt (`metaclass=ABCMeta`): `run`,
`terminate` and `validate_set` are all decorated `@abstractmethod` and none
is concretely defined. -/
def BlockSetClass : PyClass :=
  { name := "BlockSet"
    methods := []
    abstractMethodNames := ["run", "terminate", "validate_set"] }

/-- A direct subclass: it defines `newMethods`, inherits the methods of the
parent, and an abstract method of the parent stays abstract unless the
subclass overrides it. -/
def subclassOf (parent : PyClass) (nm : String)
    (newMethods : List String) : PyClass :=
  { name := nm
    methods := newMethods ++ parent.methods
    abstractMethodNames :=
      parent.abstractMethodNames.filter fun m => m ∉ newMethods }

/-- Claim C9: `BlockSet` is abstract — instantiating it directly raises —
and every successfully constructed object of a direct subclass necessarily
has concrete `run`, `terminate` and `validate_set` implementations. -/
theorem blockSet_abstract_requires_three_ops :
    (∃ e, instantiate BlockSetClass = Except.error e) ∧
    (∀ nm ms inst,
      instantiate (subclassOf BlockSetClass nm ms) = Except.ok inst →
      "run" ∈ ms ∧ "terminate" ∈ ms ∧ "validate_set" ∈ ms) := by
  constructor
  · exact ⟨_, rfl⟩
  · intro nm ms inst h
    unfold instantiate at h
    by_cases hemp : (subclassOf BlockSetClass nm ms).abstractMethodNames.isEmpty
    · simp only [subclassOf, BlockSetClass, List.isEmpty_iff,
        List.filter_eq_nil_iff] at hemp
      refine ⟨?_, ?_, ?_⟩
      · simpa using hemp "run" (by simp)
      · simpa using hemp "terminate" (by simp)
      · simpa using hemp "validate_set" (by simp)
    · rw [if_neg hemp] at h
      exact Except.noConfusion h

/-- Concrete instance of the abstractness theorem: a subclass defining all
three operations is constructible, and the three names are among its
methods. -/
theorem blockSet_abstract_requires_three_ops_witness :
    "run" ∈ ["run", "terminate", "validate_set"] ∧
    "terminate" ∈ ["run", "terminate", "validate_set"] ∧
    "validate_set" ∈ ["run", "terminate", "validate_set"] :=
  blockSet_abstract_requires_three_ops.2 "ExtractLoadBlocks"
    ["run", "terminate", "validate_set"]
    ⟨subclassOf BlockSetClass "ExtractLoadBlocks"
      ["run", "terminate", "validate_set"]⟩
    (by rfl)

/-- A directory, as observed by `os.listdir` plus file contents: an
association list from file name to content. -/
abbrev Dir := List (String × String)

/-- The file names present in a directory. -/
def Dir.names (d : Dir) : List String := d.map Prod.fst

/-- Delete the file with the given name, if present (`os.remove`). -/
def removeFile (d : Dir) (nm : String) : Dir :=
  d.filter fun p => p.1 ≠ nm

/-- Create or overwrite a file. -/
def writeFile (d : Dir) (nm content : String) : Dir :=
  (nm, content) :: removeFile d nm

/-- Atomically replace `dst` by the file currently named `tmp`
(`os.replace`). -/
def renameReplace (d : Dir) (tmp dst : String) : Dir :=
  match d.lookup tmp with
  | none => d
  | some content => writeFile (removeFile d tmp) dst content

/-- Modelled from the spec: the atomic-file-write helper
`utils.atomic_write` (listed by the spec among the leaf utilities; its
source is not part of the excerpt).  Entering the context creates a fresh
temporary file `tmp` in the directory of the target; the body writes
content into it or raises; on normal exit the temporary file atomically
replaces `target`; on an exception the temporary file is deleted, the
target is not touched, and the exception propagates. -/
def atomicWrite (d : Dir) (target tmp : String)
    (body : Except String String) : Except String Unit × Dir :=
  let entered := writeFile d tmp ""
  match body with
  | .ok content =>
    (.ok (), renameReplace (writeFile entered tmp content) tmp target)
  | .error e => (.error e, removeFile entered tmp)

/-- Removing a file that is not present leaves the directory unchanged. -/
theorem removeFile_of_not_mem (d : Dir) (nm : String)
    (h : nm ∉ Dir.names d) : removeFile d nm = d := by
  refine List.filter_eq_self.mpr fun p hp => ?_
  simp only [decide_eq_true_eq]
  intro hq
  exact h (hq ▸ List.mem_map_of_mem Prod.fst hp)

/-- Removing a file named like the head drops the head and keeps
filtering. -/
theorem removeFile_cons_self (d : Dir) (nm c : String) :
    removeFile ((nm, c) :: d) nm = removeFile d nm := by
  simp [removeFile]

/-- Claim C10: if the body inside `atomic_write(path)` raises before the
context exits, then on exit the directory is exactly as it was before the
write began — in particular no temporary file remains and the target file
does not exist when it did not exist before — and the exception
propagates.  The temporary name is fresh, as `tempfile` guarantees. -/
theorem atomic_write_exception_leaves_dir_unchanged
    (d : Dir) (target tmp e : String) (htmp : tmp ∉ Dir.names d) :
    (atomicWrite d target tmp (Except.error e)).2 = d ∧
    (atomicWrite d target tmp (Except.error e)).1 = Except.error e ∧
    (target ∉ Dir.names d →
      target ∉ Dir.names (atomicWrite d target tmp (Except.error e)).2) := by
  have hmain : (atomicWrite d target tmp (Except.error e)).2 = d := by
    show removeFile (writeFile d tmp "") tmp = d
    unfold writeFile
    rw [removeFile_cons_self, removeFile_of_not_mem d tmp htmp,
      removeFile_of_not_mem d tmp htmp]
  refine ⟨hmain, rfl, fun ht => ?_⟩
  rw [hmain]
  exact ht

/-- Concrete instance of the teardown theorem: writing "ha" into an empty
directory with a body that raises "boom" leaves the directory empty and
re-raises "boom". -/
theorem atomic_write_exception_witness :
    (atomicWrite [] "ha" ".tmp-ha" (Except.error "boom")).2 = [] ∧
    (atomicWrite [] "ha" ".tmp-ha" (Except.error "boom")).1 =
      Except.error "boom" ∧
    "ha" ∉ Dir.names (atomicWrite [] "ha" ".tmp-ha"
      (Except.error "boom")).2 :=
  ⟨(atomic_write_exception_leaves_dir_unchanged [] "ha" ".tmp-ha" "boom"
      (by simp [Dir.names])).1,
   (atomic_write_exception_leaves_dir_unchanged [] "ha" ".tmp-ha" "boom"
      (by simp [Dir.names])).2.1,
   (atomic_write_exception_leaves_dir_unchanged [] "ha" ".tmp-ha" "boom"
      (by simp [Dir.names])).2.2 (by simp [Dir.names])⟩
